import Mathlib

/-!
Verification of the `ash_renderer` engine: a shallow embedding of the
resource-lifecycle and frame-submission code (swapchain sizing, typed GPU
buffers, the synchronized command-submission protocol, descriptor/uniform
sets, the camera controller and the frame loop), with theorems checking the
natural-language specification against it.

Machine integers (`u32`) are modelled as `Nat` with an explicit `% 2 ^ 32`
where overflow matters; Vulkan handles are modelled as abstract `Nat` tokens;
calls against the device are modelled as explicit event traces; fallible
operations (Rust `assert!` / `panic!` paths) are modelled with `Option`.
-/

namespace AshRenderer

/-- The `u32` sentinel `u32::MAX = 2^32 - 1`, used by Vulkan to mark an
undefined surface extent. -/
def u32Max : Nat := 2 ^ 32 - 1

/-- Model of `vk::Extent2D`: a width and height in pixels (`u32` fields). -/
structure Extent2D where
  width : Nat
  height : Nat
deriving DecidableEq, Repr

/-- The fields of `vk::SurfaceCapabilitiesKHR` read by
`SwapchainComponents::new` (src/renderer/resize_dependent_components/swapchain_components.rs). -/
structure SurfaceCapabilities where
  minImageCount : Nat
  maxImageCount : Nat
  currentExtent : Extent2D
deriving DecidableEq, Repr

/-- The desired swapchain image count computed in `SwapchainComponents::new`
(swapchain_components.rs lines 35-41, likewise `Renderer::new` lines 211-217):
`min_image_count + 1`, then clamped down to `max_image_count` when that bound
is nonzero and exceeded.  The `u32` addition is modelled with an explicit
`% 2 ^ 32` (the release-profile wrap). -/
def desired_image_count (caps : SurfaceCapabilities) : Nat :=
  let d := (caps.minImageCount + 1) % 2 ^ 32
  if 0 < caps.maxImageCount ∧ caps.maxImageCount < d then caps.maxImageCount else d

/-- The resolved swapchain extent computed in `SwapchainComponents::new`
(swapchain_components.rs lines 43-49): when the surface reports the undefined
sentinel (`current_extent.width == u32::MAX`) the window's inner size is used
with each dimension floored at 1 (`.max(1)`); otherwise the reported current
extent is used as-is. -/
def surface_resolution (caps : SurfaceCapabilities) (windowWidth windowHeight : Nat) :
    Extent2D :=
  if caps.currentExtent.width = u32Max then
    { width := max windowWidth 1, height := max windowHeight 1 }
  else
    caps.currentExtent

/-! ### Device-event traces

The engine talks to the GPU through `ash::Device` calls.  Stateful calls are
modelled as an explicit trace of events; handles (buffers, fences, semaphores,
queues, command buffers, memory objects) are abstract `Nat` tokens. -/

/-- A command recorded into a command buffer by a recording callback.
`copyBuffer` is `cmd_copy_buffer` with a single `vk::BufferCopy` region of the
given byte size; `generic` stands for any other recorded command. -/
inductive RecordedCmd where
  | copyBuffer (src dst : Nat) (size : Nat)
  | generic (tag : Nat)
deriving DecidableEq, Repr

/-- A call against the device, as issued by the code under verification. -/
inductive DeviceEvent where
  | waitForFences (fences : List Nat) (waitAll : Bool)
  | resetFences (fences : List Nat)
  | resetCommandBuffer (cb : Nat)
  | beginCommandBuffer (cb : Nat) (oneTimeSubmit : Bool)
  | cmd (cb : Nat) (c : RecordedCmd)
  | endCommandBuffer (cb : Nat)
  | queueSubmit (queue : Nat) (waitSemaphores waitDstStageMask : List Nat)
      (commandBuffers : List Nat) (signalSemaphores : List Nat) (fence : Nat)
  | createBuffer (buffer : Nat) (size : Nat)
  | allocateMemory (memory : Nat)
  | bindBufferMemory (buffer memory : Nat)
  | mapMemory (memory : Nat)
  | unmapMemory (memory : Nat)
  | destroyBuffer (buffer : Nat)
  | freeMemory (memory : Nat)
deriving DecidableEq, Repr

/-- Model of `record_submit_commandbuffer`
(src/renderer/command_buffer_components.rs lines 70-121): wait on the reuse
fence, reset it, reset the command buffer, begin recording with the
one-time-submit flag, run the caller's recording callback (modelled by the
commands `cmds` it records), end recording, and submit with the given
wait-semaphore set, wait stage mask, signal-semaphore set and the same fence.
The returned list is the trace of device calls, in the order issued. -/
def record_submit_commandbuffer (queue commandBuffer fence : Nat)
    (waitMask waitSemaphores signalSemaphores : List Nat)
    (cmds : List RecordedCmd) : List DeviceEvent :=
  [DeviceEvent.waitForFences [fence] true,
   DeviceEvent.resetFences [fence],
   DeviceEvent.resetCommandBuffer commandBuffer,
   DeviceEvent.beginCommandBuffer commandBuffer true]
  ++ cmds.map (DeviceEvent.cmd commandBuffer)
  ++ [DeviceEvent.endCommandBuffer commandBuffer,
      DeviceEvent.queueSubmit queue waitSemaphores waitMask [commandBuffer]
        signalSemaphores fence]

/-- Whether a device call resets or (re-)records the given command buffer. -/
def touchesCommandBuffer : DeviceEvent → Nat → Bool
  | DeviceEvent.resetCommandBuffer cb, c => cb == c
  | DeviceEvent.beginCommandBuffer cb _, c => cb == c
  | DeviceEvent.cmd cb _, c => cb == c
  | DeviceEvent.endCommandBuffer cb, c => cb == c
  | _, _ => false

/-- The commands recorded into command buffers over a trace. -/
def recordedCommands (tr : List DeviceEvent) : List RecordedCmd :=
  tr.filterMap fun e =>
    match e with
    | DeviceEvent.cmd _ c => some c
    | _ => none

/-! ### Typed GPU buffer (src/renderer/buffer.rs) -/

/-- Flag `vk::BufferUsageFlags::TRANSFER_SRC` (bit 0). -/
def TRANSFER_SRC : Nat := 1

/-- Flag `vk::BufferUsageFlags::TRANSFER_DST` (bit 1). -/
def TRANSFER_DST : Nat := 2

/-- Flag `vk::MemoryPropertyFlags::HOST_VISIBLE` (bit 1). -/
def HOST_VISIBLE : Nat := 2

/-- Flag `vk::MemoryPropertyFlags::HOST_COHERENT` (bit 2). -/
def HOST_COHERENT : Nat := 4

/-- Model of `Buffer<T>` (buffer.rs lines 7-14): buffer handle, backing memory handle,
`size` in bytes (`size_of::<T>() * buffer_len`, as computed by `Buffer::new`),
usage flags, memory-property flags, and whether a persistent mapping exists
(the `Option<ash::util::Align<T>>` field, abstracted to its presence). -/
structure Buffer where
  buffer : Nat
  memory : Nat
  size : Nat
  usage : Nat
  memoryProperties : Nat
  mapping : Bool
deriving DecidableEq, Repr

/-- Model of `Buffer::new` (buffer.rs lines 17-84), restricted to the state it builds:
`size` is the byte size `size_of::<T>() * buffer_len`; the handles returned by
`create_buffer` and `allocate_memory` are taken as parameters. -/
def Buffer.new (elemSize usage memoryProperties bufferLen : Nat)
    (persistentMapping : Bool) (bufferHandle memoryHandle : Nat) : Buffer :=
  { buffer := bufferHandle
    memory := memoryHandle
    size := elemSize * bufferLen
    usage := usage
    memoryProperties := memoryProperties
    mapping := persistentMapping }

/-- The trace of device calls issued by `Buffer::new` (buffer.rs lines 17-84):
create the buffer handle, allocate the memory, bind it, and map it when a
persistent mapping is requested. -/
def buffer_new_trace (elemSize bufferLen : Nat) (persistentMapping : Bool)
    (bufferHandle memoryHandle : Nat) : List DeviceEvent :=
  [DeviceEvent.createBuffer bufferHandle (elemSize * bufferLen),
   DeviceEvent.allocateMemory memoryHandle,
   DeviceEvent.bindBufferMemory bufferHandle memoryHandle]
  ++ (if persistentMapping then [DeviceEvent.mapMemory memoryHandle] else [])

/-- How `Buffer::write_data_direct` performed an accepted write. -/
inductive DirectWriteMethod where
  | persistentMapping
  | mapCopyUnmap
deriving DecidableEq, Repr

/-- Model of `Buffer::write_data_direct` (buffer.rs lines 85-120) for a data slice of
`dataLen` elements.  The three `assert!`s are modelled by `none` (panic):
the memory-property flags must contain `HOST_VISIBLE` and `HOST_COHERENT`
(checked with `flags & F == F`), and — exactly as the source is written —
`data.len() <= self.size`, comparing the element count against the BYTE size.
An accepted write copies through the persistent mapping when one exists and
otherwise maps, copies and unmaps for this call only. -/
def Buffer.write_data_direct (b : Buffer) (dataLen : Nat) : Option DirectWriteMethod :=
  if b.memoryProperties &&& HOST_VISIBLE = HOST_VISIBLE
      ∧ b.memoryProperties &&& HOST_COHERENT = HOST_COHERENT
      ∧ dataLen ≤ b.size then
    some (if b.mapping then DirectWriteMethod.persistentMapping
          else DirectWriteMethod.mapCopyUnmap)
  else
    none

/-- Model of `Buffer::write_from_staging` (buffer.rs lines 121-157): the three
`assert!`s (destination has `TRANSFER_DST` usage, staging has `TRANSFER_SRC`
usage, `self.size >= staging_buffer.size`) are modelled by `none`; an accepted
call records one `cmd_copy_buffer` of the staging buffer's byte size through
`record_submit_commandbuffer` with empty wait-mask, wait-semaphore and
signal-semaphore sets. -/
def Buffer.write_from_staging (b staging : Buffer)
    (queue commandBuffer fence : Nat) : Option (List DeviceEvent) :=
  if b.usage &&& TRANSFER_DST = TRANSFER_DST
      ∧ staging.usage &&& TRANSFER_SRC = TRANSFER_SRC
      ∧ staging.size ≤ b.size then
    some (record_submit_commandbuffer queue commandBuffer fence [] [] []
      [RecordedCmd.copyBuffer staging.buffer b.buffer staging.size])
  else
    none

/-- Model of `Buffer::cleanup` (buffer.rs lines 158-163): the trace of the two destroy
calls, in the order the source issues them — `destroy_buffer` first, then
`free_memory`. -/
def Buffer.cleanup (b : Buffer) : List DeviceEvent :=
  [DeviceEvent.destroyBuffer b.buffer, DeviceEvent.freeMemory b.memory]

/-! ### Descriptor & uniform set (src/renderer/descriptor_components.rs) -/

/-- Value of `vk::DescriptorType::UNIFORM_BUFFER` (= 6). -/
def UNIFORM_BUFFER_DESCRIPTOR : Nat := 6

/-- Flag `vk::ShaderStageFlags::VERTEX` (bit 0). -/
def SHADER_STAGE_VERTEX : Nat := 1

/-- Byte size `size_of::<UniformBufferObject>()`: three 4×4 `f32` matrices = 192 bytes. -/
def uniformBufferObjectByteSize : Nat := 192

/-- One entry of the descriptor-set layout (`vk::DescriptorSetLayoutBinding`). -/
structure DescriptorSetLayoutBinding where
  binding : Nat
  descriptorType : Nat
  descriptorCount : Nat
  stageFlags : Nat
deriving DecidableEq, Repr

/-- One `vk::WriteDescriptorSet` update with its single buffer info. -/
structure WriteDescriptorSet where
  dstSet : Nat
  dstBinding : Nat
  descriptorType : Nat
  buffer : Nat
  offset : Nat
  range : Nat
deriving DecidableEq, Repr

/-- The state built by `DescriptorComponents::new`
(src/renderer/descriptor_components.rs lines 23-158): per-image uniform
buffers, their memories and persistent mappings, the descriptor sets, the one
layout binding, and the descriptor writes issued. -/
structure DescriptorComponents where
  descriptorSets : List Nat
  uniformBuffers : List Nat
  uniformBufferMemories : List Nat
  uniformBufferMappings : List Nat
  layoutBindings : List DescriptorSetLayoutBinding
  writes : List WriteDescriptorSet
deriving DecidableEq, Repr

/-- Model of `DescriptorComponents::new` for a given `present_image_count`: the loop
creates one uniform buffer, memory and persistent mapping per image (fresh
handles come from the allocation functions `newBuffer`, `newMemory`; the
mapping is over the i-th memory); `allocate_descriptor_sets` returns one set
per layout copy (`newDescriptorSet`); the final loop writes descriptor set `i`
at binding 0, type uniform-buffer, pointing at uniform buffer `i` with offset
0 and the UBO byte range.  The single layout binding is binding 0, uniform
buffer, count 1, vertex stage. -/
def DescriptorComponents.new (newBuffer newMemory newDescriptorSet : Nat → Nat)
    (presentImageCount : Nat) : DescriptorComponents :=
  { uniformBuffers := (List.range presentImageCount).map newBuffer
    uniformBufferMemories := (List.range presentImageCount).map newMemory
    uniformBufferMappings := (List.range presentImageCount).map newMemory
    descriptorSets := (List.range presentImageCount).map newDescriptorSet
    layoutBindings := [⟨0, UNIFORM_BUFFER_DESCRIPTOR, 1, SHADER_STAGE_VERTEX⟩]
    writes := (List.range presentImageCount).map fun i =>
      ⟨newDescriptorSet i, 0, UNIFORM_BUFFER_DESCRIPTOR, newBuffer i, 0,
        uniformBufferObjectByteSize⟩ }

/-! ### Camera & controller (src/renderer/camera.rs)

The source works on `f32`; the embedding uses exact rationals for the field
operations and takes the two trigonometric functions as parameters, keeping
the data flow of the source intact. -/

/-- A 3-component vector (`nalgebra::Vector3`/`Point3`). -/
structure Vec3 where
  x : ℚ
  y : ℚ
  z : ℚ
deriving DecidableEq, Repr

/-- Componentwise vector addition. -/
def Vec3.add (a b : Vec3) : Vec3 :=
  ⟨a.x + b.x, a.y + b.y, a.z + b.z⟩

/-- Componentwise vector subtraction. -/
def Vec3.sub (a b : Vec3) : Vec3 :=
  ⟨a.x - b.x, a.y - b.y, a.z - b.z⟩

/-- Vector–scalar multiplication. -/
def Vec3.smul (a : Vec3) (s : ℚ) : Vec3 :=
  ⟨a.x * s, a.y * s, a.z * s⟩

/-- The cross product, as `nalgebra`'s `Vector3::cross`. -/
def Vec3.cross (a b : Vec3) : Vec3 :=
  ⟨a.y * b.z - a.z * b.y, a.z * b.x - a.x * b.z, a.x * b.y - a.y * b.x⟩

/-- Model of `Camera` (camera.rs lines 6-19): position, the polar angle `phi`, the
azimuthal angle `theta`, the up vector and the fixed projection parameters. -/
structure Camera where
  position : Vec3
  phi : ℚ
  theta : ℚ
  up : Vec3
  fovy : ℚ
  znear : ℚ
  zfar : ℚ
deriving DecidableEq, Repr

/-- Model of `Camera::forward` (camera.rs lines 40-47):
`(sin phi * sin theta, -cos phi, sin phi * cos theta)`, with the sine and
cosine functions `sf`, `cf` taken as parameters. -/
def Camera.forward (sf cf : ℚ → ℚ) (c : Camera) : Vec3 :=
  ⟨sf c.phi * sf c.theta, -1 * cf c.phi, sf c.phi * cf c.theta⟩

/-- Model of `CameraController` (camera.rs lines 65-75): movement speed, mouse
sensitivity, the accumulated mouse deltas and the four movement flags. -/
structure CameraController where
  speed : ℚ
  mouseSens : ℚ
  mouseDeltaX : ℚ
  mouseDeltaY : ℚ
  forwardPressed : Bool
  backwardPressed : Bool
  leftPressed : Bool
  rightPressed : Bool
deriving DecidableEq, Repr

/-- Model of `CameraController::update_camera` (camera.rs lines 91-110): move the
position by `speed` along the forward/right vectors according to the pressed
flags, add the mouse deltas scaled by the sensitivity to `theta`/`phi`, and
zero the two mouse deltas.  Returns the updated `(controller, camera)` pair
(the source mutates both through `&mut`). -/
def CameraController.update_camera (sf cf : ℚ → ℚ) (self : CameraController)
    (camera : Camera) : CameraController × Camera :=
  let forward := camera.forward sf cf
  let right := Vec3.cross forward ⟨0, -1, 0⟩
  let p1 := if self.forwardPressed then
      Vec3.add camera.position (Vec3.smul forward self.speed) else camera.position
  let p2 := if self.backwardPressed then
      Vec3.sub p1 (Vec3.smul forward self.speed) else p1
  let p3 := if self.leftPressed then
      Vec3.sub p2 (Vec3.smul right self.speed) else p2
  let p4 := if self.rightPressed then
      Vec3.add p3 (Vec3.smul right self.speed) else p3
  ({ self with mouseDeltaX := 0, mouseDeltaY := 0 },
   { camera with
      position := p4
      theta := camera.theta + self.mouseDeltaX * self.mouseSens
      phi := camera.phi + self.mouseDeltaY * self.mouseSens })

/-- Returns `1` for a pressed flag, `0` otherwise — used to state the net movement. -/
def boolToRat (b : Bool) : ℚ :=
  if b then 1 else 0

/-! ### Frame loop (spec §4.6)

The final evolution's `Renderer::draw_frame` — the one with the
`resize_dependent_component_rebuild_needed` flag that src/app.rs sets and
consumes — is not among the sources; only its caller (src/app.rs lines 45-50,
75-79) and an earlier evolution (src/renderer.rs lines 747-819) are.  The
frame-loop step is therefore modelled from the spec. -/

/-- Outcome of `acquire_next_image`: success (with the suboptimal flag and the
acquired image index), the recoverable out-of-date error, or any other
(fatal) error. -/
inductive AcquireOutcome where
  | success (suboptimal : Bool) (imageIndex : Nat)
  | outOfDate
  | otherError
deriving DecidableEq, Repr

/-- Outcome of `queue_present`. -/
inductive PresentOutcome where
  | ok
  | suboptimal
  | outOfDate
  | otherError
deriving DecidableEq, Repr

/-- The externally visible steps of one `draw_frame` call. -/
inductive FrameAction where
  | rebuildResizeDependentComponents
  | waitDrawFence
  | acquireNextImage
  | updateUniformBuffer
  | recordSubmitDraw
  | presentImage
deriving DecidableEq, Repr

/-- How the frame ended: completed normally, skipped (early return without
drawing), or fatal (process aborts). -/
inductive FrameResult where
  | completed
  | skipped
  | fatal
deriving DecidableEq, Repr

/-- Modelled from the spec: the final evolution's `Renderer::draw_frame`
(spec §4.6), which is missing from the sources.  Steps: (1) if the rebuild
flag is set, rebuild the surface-dependent resource set and clear the flag;
(2) wait on the draw fence; (3) acquire the next image — on success a
suboptimal result sets the rebuild flag but the frame is still drawn, an
out-of-date error sets the rebuild flag and returns early without drawing,
and any other error is fatal; (4)-(6) update the uniform buffer, record and
submit, present — an out-of-date or suboptimal present result sets the
rebuild flag for the next frame, any other present error is fatal.  Returns
the new rebuild flag, the actions performed, and how the frame ended. -/
def draw_frame (rebuildNeeded : Bool) (acquire : AcquireOutcome)
    (present : PresentOutcome) : Bool × List FrameAction × FrameResult :=
  let pre := if rebuildNeeded then [FrameAction.rebuildResizeDependentComponents] else []
  let upToAcquire := pre ++ [FrameAction.waitDrawFence, FrameAction.acquireNextImage]
  match acquire with
  | AcquireOutcome.outOfDate => (true, upToAcquire, FrameResult.skipped)
  | AcquireOutcome.otherError => (false, upToAcquire, FrameResult.fatal)
  | AcquireOutcome.success suboptimal _ =>
    let drawn := upToAcquire
      ++ [FrameAction.updateUniformBuffer, FrameAction.recordSubmitDraw,
          FrameAction.presentImage]
    match present with
    | PresentOutcome.ok => (suboptimal, drawn, FrameResult.completed)
    | PresentOutcome.suboptimal => (true, drawn, FrameResult.completed)
    | PresentOutcome.outOfDate => (true, drawn, FrameResult.completed)
    | PresentOutcome.otherError => (suboptimal, drawn, FrameResult.fatal)

/-! ### Memory-type selection (src/renderer.rs lines 901-914) -/

/-- The fields of `vk::MemoryRequirements` read by `find_memorytype_index`. -/
structure MemoryRequirements where
  size : Nat
  alignment : Nat
  memoryTypeBits : Nat
deriving DecidableEq, Repr

/-- One entry of the device memory-type table (`vk::MemoryType`). -/
structure MemoryType where
  propertyFlags : Nat
  heapIndex : Nat
deriving DecidableEq, Repr

/-- Model of `vk::PhysicalDeviceMemoryProperties`, restricted to the fields used: the
valid prefix length and the memory-type table (a 32-entry array in Vulkan,
modelled as a list). -/
structure PhysicalDeviceMemoryProperties where
  memoryTypeCount : Nat
  memoryTypes : List MemoryType
deriving DecidableEq, Repr

/-- The predicate of the `find` closure in `find_memorytype_index`:
`(1 << index) & memory_type_bits != 0 && property_flags & flags == flags`. -/
def memoryTypeQualifies (req : MemoryRequirements) (flags : Nat) (index : Nat)
    (mt : MemoryType) : Bool :=
  (1 <<< index &&& req.memoryTypeBits != 0) && (mt.propertyFlags &&& flags == flags)

/-- Model of `find_memorytype_index` (src/renderer.rs lines 901-914): iterate over the
first `memory_type_count` entries of the memory-type table with their indices
and return the index of the first entry whose bit is set in
`memory_type_bits` and whose property flags contain all requested `flags`. -/
def find_memorytype_index (req : MemoryRequirements)
    (prop : PhysicalDeviceMemoryProperties) (flags : Nat) : Option Nat :=
  (((prop.memoryTypes.take prop.memoryTypeCount).enum).find? fun p =>
      memoryTypeQualifies req flags p.1 p.2).map fun p => p.1

/-- Reference recursion equivalent to enumerate-then-find, used to prove the
first-match characterization of `find_memorytype_index`. -/
def findIndexedAux {α : Type} (f : Nat → α → Bool) (i : Nat) (l : List α) :
    Option Nat :=
  match l with
  | [] => none
  | a :: rest => if f i a then some i else findIndexedAux f (i + 1) rest

/-- C3: the desired image count follows the clamping rule and stays within the
capability bounds.  The hypotheses state that the input is a well-formed Vulkan
capability report: `minImageCount + 1` is representable in `u32`, and
`maxImageCount` is either zero (unbounded) or at least `minImageCount`, both
guaranteed by the Vulkan specification for any report the code can receive. -/
theorem desired_image_count_clamped (caps : SurfaceCapabilities)
    (hmin : caps.minImageCount + 1 < 2 ^ 32)
    (hmax : caps.maxImageCount = 0 ∨ caps.minImageCount ≤ caps.maxImageCount) :
    ((caps.maxImageCount = 0 ∨ caps.minImageCount + 1 ≤ caps.maxImageCount) →
        desired_image_count caps = caps.minImageCount + 1)
    ∧ (0 < caps.maxImageCount ∧ caps.maxImageCount < caps.minImageCount + 1 →
        desired_image_count caps = caps.maxImageCount)
    ∧ (0 < caps.maxImageCount →
        caps.minImageCount ≤ desired_image_count caps
          ∧ desired_image_count caps ≤ caps.maxImageCount) := by
  unfold desired_image_count
  rw [Nat.mod_eq_of_lt hmin]
  refine ⟨?_, ?_, ?_⟩
  · intro h
    rcases h with h | h
    · simp [h]
    · rw [if_neg]
      omega
  · intro h
    rw [if_pos h]
  · intro h
    rcases hmax with hmax | hmax
    · omega
    · by_cases hcl : 0 < caps.maxImageCount ∧ caps.maxImageCount < caps.minImageCount + 1
      · rw [if_pos hcl]
        omega
      · rw [if_neg hcl]
        omega

/-- Witness for C3, end-to-end scenario A of the spec: `min_image_count = 2`,
`max_image_count = 0` gives a desired image count of 3. -/
theorem desired_image_count_clamped_witness :
    desired_image_count ⟨2, 0, ⟨800, 600⟩⟩ = 3 := by
  have h := desired_image_count_clamped ⟨2, 0, ⟨800, 600⟩⟩ (by norm_num) (Or.inl rfl)
  simpa using h.1 (Or.inl rfl)

/-- Counterexample for C2: for a capability report whose defined (non-sentinel)
current extent is `0 × 0`, the resolved extent is `0 × 0`, not at least
`1 × 1` — the `.max(1)` floor is applied only on the sentinel branch. -/
theorem surface_resolution_zero_extent_counterexample :
    ¬ (1 ≤ (surface_resolution ⟨2, 0, ⟨0, 0⟩⟩ 0 0).width
        ∧ 1 ≤ (surface_resolution ⟨2, 0, ⟨0, 0⟩⟩ 0 0).height) := by
  decide

/-- C2 (amended): when the surface reports the undefined sentinel extent the
resolved extent is the window size floored at 1 per dimension, hence at least
`1 × 1` even for a `0 × 0` window; when the surface reports a defined current
extent, that extent is used as-is, so the result is at least `1 × 1` exactly
when the report is. -/
theorem surface_resolution_ge_one (caps : SurfaceCapabilities)
    (windowWidth windowHeight : Nat)
    (h : caps.currentExtent.width = u32Max
        ∨ (1 ≤ caps.currentExtent.width ∧ 1 ≤ caps.currentExtent.height)) :
    (1 ≤ (surface_resolution caps windowWidth windowHeight).width
      ∧ 1 ≤ (surface_resolution caps windowWidth windowHeight).height)
    ∧ (caps.currentExtent.width = u32Max →
        surface_resolution caps windowWidth windowHeight
          = ⟨max windowWidth 1, max windowHeight 1⟩)
    ∧ (caps.currentExtent.width ≠ u32Max →
        surface_resolution caps windowWidth windowHeight = caps.currentExtent) := by
  unfold surface_resolution
  by_cases hc : caps.currentExtent.width = u32Max
  · rw [if_pos hc]
    refine ⟨⟨Nat.le_max_right _ _, Nat.le_max_right _ _⟩, fun _ => rfl, fun hn => absurd hc hn⟩
  · rw [if_neg hc]
    rcases h with h | h
    · exact absurd h hc
    · exact ⟨h, fun habs => absurd habs hc, fun _ => rfl⟩

/-- Witness for the amended C2: a degenerate `0 × 0` window with an undefined
current extent still resolves to an extent of at least `1 × 1`. -/
theorem surface_resolution_ge_one_witness :
    1 ≤ (surface_resolution ⟨2, 0, ⟨u32Max, 77⟩⟩ 0 0).width
      ∧ 1 ≤ (surface_resolution ⟨2, 0, ⟨u32Max, 77⟩⟩ 0 0).height := by
  have h := surface_resolution_ge_one ⟨2, 0, ⟨u32Max, 77⟩⟩ 0 0 (Or.inl rfl)
  exact ⟨h.1.1, h.1.2⟩

/-- Helper: indexing a mapped list prepended to a tail. -/
theorem get?_map_append_of_get? {α β : Type} (f : α → β) (l : List α)
    (rest : List β) (k : Nat) (c : α) (h : l.get? k = some c) :
    (l.map f ++ rest).get? k = some (f c) := by
  induction l generalizing k with
  | nil => simp at h
  | cons a l ih =>
    cases k with
    | zero =>
      simp only [List.get?] at h
      cases h
      rfl
    | succ n => exact ih n (by simpa using h)

/-- Helper: indexing past a prefix of known length. -/
theorem get?_append_length_add {α : Type} (l rest : List α) (n : Nat) :
    (l ++ rest).get? (l.length + n) = rest.get? n := by
  induction l with
  | nil => simp
  | cons a l ih => simpa [Nat.succ_add] using ih

/-- C4: `record_submit_commandbuffer` issues, in exactly this order: wait on
the reuse fence, reset that fence, reset the command buffer, begin recording
with the one-time-submit flag, the callback's commands, end recording, and a
single submit carrying the given wait semaphores, wait stage mask, signal
semaphores and the now-reset fence.  In particular every call that resets or
(re-)records the command buffer comes strictly after the fence wait at index
0, so the command buffer is never touched while its fence may still be
unsignaled. -/
theorem record_submit_commandbuffer_protocol (queue cb fence : Nat)
    (waitMask waitSemaphores signalSemaphores : List Nat)
    (cmds : List RecordedCmd) :
    (record_submit_commandbuffer queue cb fence waitMask waitSemaphores
        signalSemaphores cmds).length = cmds.length + 6
    ∧ (record_submit_commandbuffer queue cb fence waitMask waitSemaphores
        signalSemaphores cmds).get? 0 = some (DeviceEvent.waitForFences [fence] true)
    ∧ (record_submit_commandbuffer queue cb fence waitMask waitSemaphores
        signalSemaphores cmds).get? 1 = some (DeviceEvent.resetFences [fence])
    ∧ (record_submit_commandbuffer queue cb fence waitMask waitSemaphores
        signalSemaphores cmds).get? 2 = some (DeviceEvent.resetCommandBuffer cb)
    ∧ (record_submit_commandbuffer queue cb fence waitMask waitSemaphores
        signalSemaphores cmds).get? 3 = some (DeviceEvent.beginCommandBuffer cb true)
    ∧ (∀ k c, cmds.get? k = some c →
        (record_submit_commandbuffer queue cb fence waitMask waitSemaphores
          signalSemaphores cmds).get? (k + 4) = some (DeviceEvent.cmd cb c))
    ∧ (record_submit_commandbuffer queue cb fence waitMask waitSemaphores
        signalSemaphores cmds).get? (cmds.length + 4)
        = some (DeviceEvent.endCommandBuffer cb)
    ∧ (record_submit_commandbuffer queue cb fence waitMask waitSemaphores
        signalSemaphores cmds).get? (cmds.length + 5)
        = some (DeviceEvent.queueSubmit queue waitSemaphores waitMask [cb]
            signalSemaphores fence)
    ∧ (∀ i e, (record_submit_commandbuffer queue cb fence waitMask waitSemaphores
        signalSemaphores cmds).get? i = some e →
        touchesCommandBuffer e cb = true → 0 < i) := by
  have htr : record_submit_commandbuffer queue cb fence waitMask waitSemaphores
      signalSemaphores cmds
      = DeviceEvent.waitForFences [fence] true
        :: DeviceEvent.resetFences [fence]
        :: DeviceEvent.resetCommandBuffer cb
        :: DeviceEvent.beginCommandBuffer cb true
        :: (cmds.map (DeviceEvent.cmd cb)
            ++ [DeviceEvent.endCommandBuffer cb,
                DeviceEvent.queueSubmit queue waitSemaphores waitMask [cb]
                  signalSemaphores fence]) := rfl
  refine ⟨?_, rfl, rfl, rfl, rfl, ?_, ?_, ?_, ?_⟩
  · rw [htr]
    simp [List.length_append]
  · intro k c h
    rw [htr]
    show (cmds.map (DeviceEvent.cmd cb) ++ _).get? k = _
    exact get?_map_append_of_get? _ _ _ _ _ h
  · rw [htr]
    show (cmds.map (DeviceEvent.cmd cb) ++ _).get? cmds.length = _
    have h := get?_append_length_add (cmds.map (DeviceEvent.cmd cb))
      [DeviceEvent.endCommandBuffer cb,
       DeviceEvent.queueSubmit queue waitSemaphores waitMask [cb]
         signalSemaphores fence] 0
    simpa using h
  · rw [htr]
    show (cmds.map (DeviceEvent.cmd cb) ++ _).get? (cmds.length + 1) = _
    have h := get?_append_length_add (cmds.map (DeviceEvent.cmd cb))
      [DeviceEvent.endCommandBuffer cb,
       DeviceEvent.queueSubmit queue waitSemaphores waitMask [cb]
         signalSemaphores fence] 1
    simpa using h
  · intro i e hget htouch
    cases i with
    | zero =>
      rw [htr] at hget
      simp only [List.get?] at hget
      cases hget
      simp [touchesCommandBuffer] at htouch
    | succ n => exact Nat.succ_pos n

/-- Witness for C4 at a concrete input: the first issued call is the fence
wait and the last is the submit with the reset fence. -/
theorem record_submit_commandbuffer_protocol_witness :
    (record_submit_commandbuffer 0 1 2 [7] [3] [4] [RecordedCmd.generic 9]).get? 0
      = some (DeviceEvent.waitForFences [2] true)
    ∧ (record_submit_commandbuffer 0 1 2 [7] [3] [4] [RecordedCmd.generic 9]).get? 6
      = some (DeviceEvent.queueSubmit 0 [3] [7] [1] [4] 2) := by
  have h := record_submit_commandbuffer_protocol 0 1 2 [7] [3] [4]
    [RecordedCmd.generic 9]
  exact ⟨h.2.1, h.2.2.2.2.2.2.2.1⟩

/-- C6: `write_from_staging` is accepted exactly when the destination has
transfer-destination usage, the staging buffer has transfer-source usage and
the staging byte size does not exceed the destination's; an accepted call
records exactly one buffer-copy command of the staging buffer's size, through
the synchronized submission protocol (fence wait first, one submit with empty
wait- and signal-semaphore sets last). -/
theorem write_from_staging_spec (b staging : Buffer) (queue cb fence : Nat) :
    ((b.write_from_staging staging queue cb fence).isSome ↔
      (b.usage &&& TRANSFER_DST = TRANSFER_DST
        ∧ staging.usage &&& TRANSFER_SRC = TRANSFER_SRC
        ∧ staging.size ≤ b.size))
    ∧ (∀ tr, b.write_from_staging staging queue cb fence = some tr →
        recordedCommands tr
          = [RecordedCmd.copyBuffer staging.buffer b.buffer staging.size]
        ∧ tr.get? 0 = some (DeviceEvent.waitForFences [fence] true)
        ∧ tr.length = 7
        ∧ tr.get? 6 = some (DeviceEvent.queueSubmit queue [] [] [cb] [] fence)) := by
  unfold Buffer.write_from_staging
  by_cases hcond : b.usage &&& TRANSFER_DST = TRANSFER_DST
      ∧ staging.usage &&& TRANSFER_SRC = TRANSFER_SRC
      ∧ staging.size ≤ b.size
  · rw [if_pos hcond]
    refine ⟨by simpa using hcond, ?_⟩
    intro tr h
    cases h
    exact ⟨rfl, rfl, rfl, rfl⟩
  · rw [if_neg hcond]
    refine ⟨by simpa using hcond, ?_⟩
    intro tr h
    cases h

/-- Witness for C6: a concrete accepted staged upload (4-byte elements,
2-element buffers on both sides) records exactly the one 8-byte copy. -/
theorem write_from_staging_spec_witness :
    recordedCommands ((Buffer.write_from_staging
        (Buffer.new 4 TRANSFER_DST 0 2 false 20 21)
        (Buffer.new 4 TRANSFER_SRC 0 2 false 10 11) 0 1 2).getD [])
      = [RecordedCmd.copyBuffer 10 20 8] :=
  ((write_from_staging_spec (Buffer.new 4 TRANSFER_DST 0 2 false 20 21)
    (Buffer.new 4 TRANSFER_SRC 0 2 false 10 11) 0 1 2).2 _ rfl).1

/-- C5 (code bug): `write_data_direct`'s capacity assertion compares the
element count of the data slice against the BYTE size of the buffer
(`data.len() <= self.size` with `self.size = size_of::<T>() * buffer_len`),
not against the element capacity as the specification states.  Failing input:
a host-visible, host-coherent, persistently mapped buffer with 16-byte
elements and `buffer_len = 1` (so element capacity 1, byte size 16); a write
of 2 elements is accepted (2 ≤ 16) even though 2 exceeds the capacity 1. -/
theorem write_data_direct_capacity_bug :
    (Buffer.new 16 0 (HOST_VISIBLE ||| HOST_COHERENT) 1 true 30 31).write_data_direct 2
      = some DirectWriteMethod.persistentMapping
    ∧ (Buffer.new 16 0 (HOST_VISIBLE ||| HOST_COHERENT) 1 true 30 31).size = 16 * 1 := by
  exact ⟨by decide, rfl⟩

/-- Counterexample for C7: `Buffer::cleanup` destroys the buffer handle first
and frees the memory second — not memory first as the claim states. -/
theorem buffer_cleanup_order_counterexample :
    Buffer.cleanup (Buffer.new 4 0 0 3 false 40 41)
        = [DeviceEvent.destroyBuffer 40, DeviceEvent.freeMemory 41]
    ∧ Buffer.cleanup (Buffer.new 4 0 0 3 false 40 41)
        ≠ [DeviceEvent.freeMemory 41, DeviceEvent.destroyBuffer 40] := by
  decide

/-- C7 (amended): creation creates the buffer handle before allocating the
memory, and `cleanup` destroys the two resources in that SAME order — buffer
handle first, memory second (not reversed). -/
theorem buffer_cleanup_follows_creation_order
    (elemSize usage memoryProperties bufferLen : Nat) (pm : Bool)
    (bufferHandle memoryHandle : Nat) :
    (buffer_new_trace elemSize bufferLen pm bufferHandle memoryHandle).get? 0
        = some (DeviceEvent.createBuffer bufferHandle (elemSize * bufferLen))
    ∧ (buffer_new_trace elemSize bufferLen pm bufferHandle memoryHandle).get? 1
        = some (DeviceEvent.allocateMemory memoryHandle)
    ∧ (Buffer.new elemSize usage memoryProperties bufferLen pm bufferHandle
        memoryHandle).cleanup
        = [DeviceEvent.destroyBuffer bufferHandle, DeviceEvent.freeMemory memoryHandle] :=
  ⟨rfl, rfl, rfl⟩

/-- C8: for every present-image count `n`, the constructed descriptor/uniform
component holds exactly `n` uniform buffers, `n` memories, `n` persistent
mappings, `n` descriptor sets and `n` descriptor writes; write `i` binds
descriptor set `i` at binding 0 (uniform-buffer type) to uniform buffer `i`,
and the single layout binding is binding 0 for the vertex stage.  In
particular the arrays indexed by the current image index all have length
equal to the swapchain's image count `n`. -/
theorem descriptor_components_counts_and_bindings
    (newBuffer newMemory newDescriptorSet : Nat → Nat) (n : Nat) :
    (DescriptorComponents.new newBuffer newMemory newDescriptorSet n).uniformBuffers.length = n
    ∧ (DescriptorComponents.new newBuffer newMemory newDescriptorSet n).uniformBufferMemories.length = n
    ∧ (DescriptorComponents.new newBuffer newMemory newDescriptorSet n).uniformBufferMappings.length = n
    ∧ (DescriptorComponents.new newBuffer newMemory newDescriptorSet n).descriptorSets.length = n
    ∧ (DescriptorComponents.new newBuffer newMemory newDescriptorSet n).writes.length = n
    ∧ (∀ i, i < n →
        (DescriptorComponents.new newBuffer newMemory newDescriptorSet n).writes.get? i
          = some ⟨newDescriptorSet i, 0, UNIFORM_BUFFER_DESCRIPTOR, newBuffer i, 0,
              uniformBufferObjectByteSize⟩
        ∧ (DescriptorComponents.new newBuffer newMemory newDescriptorSet n).descriptorSets.get? i
          = some (newDescriptorSet i)
        ∧ (DescriptorComponents.new newBuffer newMemory newDescriptorSet n).uniformBuffers.get? i
          = some (newBuffer i))
    ∧ (DescriptorComponents.new newBuffer newMemory newDescriptorSet n).layoutBindings
        = [⟨0, UNIFORM_BUFFER_DESCRIPTOR, 1, SHADER_STAGE_VERTEX⟩] := by
  refine ⟨by simp [DescriptorComponents.new], by simp [DescriptorComponents.new],
    by simp [DescriptorComponents.new], by simp [DescriptorComponents.new],
    by simp [DescriptorComponents.new], ?_, rfl⟩
  intro i hi
  have hrange : (List.range n)[i]? = some i := List.getElem?_range hi
  refine ⟨?_, ?_, ?_⟩ <;>
    simp [DescriptorComponents.new, List.get?_eq_getElem?, List.getElem?_map, hrange]

/-- Witness for C8 at image count 3 with concrete handle allocators. -/
theorem descriptor_components_counts_and_bindings_witness :
    (DescriptorComponents.new (fun i => 100 + i) (fun i => 200 + i)
        (fun i => 300 + i) 3).descriptorSets.length = 3
    ∧ (DescriptorComponents.new (fun i => 100 + i) (fun i => 200 + i)
        (fun i => 300 + i) 3).writes.get? 1
      = some ⟨301, 0, UNIFORM_BUFFER_DESCRIPTOR, 101, 0, uniformBufferObjectByteSize⟩ := by
  have h := descriptor_components_counts_and_bindings (fun i => 100 + i)
    (fun i => 200 + i) (fun i => 300 + i) 3
  refine ⟨h.2.2.2.1, ?_⟩
  have h2 := (h.2.2.2.2.2.1 1 (by norm_num)).1
  simpa using h2

/-- Helper: componentwise equality of vectors. -/
theorem Vec3.eq_of_components {a b : Vec3} (hx : a.x = b.x) (hy : a.y = b.y)
    (hz : a.z = b.z) : a = b := by
  cases a
  cases b
  cases hx
  cases hy
  cases hz
  rfl

/-- Counterexample for C9: `update_camera` does NOT zero the boolean
movement-direction flags — a controller with `forward_pressed = true` still
has it set after the call (the flags mirror key state and are cleared only by
key-release events). -/
theorem update_camera_flags_not_zeroed_counterexample :
    ((CameraController.update_camera (fun q => q) (fun q => q)
        ⟨1, 1, 0, 0, true, false, false, false⟩
        ⟨⟨0, 0, 0⟩, 0, 0, ⟨0, -1, 0⟩, 45, 1 / 100, 100⟩).1).forwardPressed = true := rfl

/-- C9 (amended): one `update_camera` call moves the position by the net
pressed-flag combination of `speed` along the forward and right vectors, adds
the sensitivity-scaled mouse deltas to `theta` and `phi`, and zeroes the two
mouse deltas; the movement flags (and speed/sensitivity) are left unchanged
rather than zeroed. -/
theorem update_camera_applies_input_and_zeroes_deltas (sf cf : ℚ → ℚ)
    (ctrl : CameraController) (cam : Camera) :
    (ctrl.update_camera sf cf cam).1.mouseDeltaX = 0
    ∧ (ctrl.update_camera sf cf cam).1.mouseDeltaY = 0
    ∧ (ctrl.update_camera sf cf cam).1.forwardPressed = ctrl.forwardPressed
    ∧ (ctrl.update_camera sf cf cam).1.backwardPressed = ctrl.backwardPressed
    ∧ (ctrl.update_camera sf cf cam).1.leftPressed = ctrl.leftPressed
    ∧ (ctrl.update_camera sf cf cam).1.rightPressed = ctrl.rightPressed
    ∧ (ctrl.update_camera sf cf cam).1.speed = ctrl.speed
    ∧ (ctrl.update_camera sf cf cam).1.mouseSens = ctrl.mouseSens
    ∧ (ctrl.update_camera sf cf cam).2.theta
        = cam.theta + ctrl.mouseDeltaX * ctrl.mouseSens
    ∧ (ctrl.update_camera sf cf cam).2.phi
        = cam.phi + ctrl.mouseDeltaY * ctrl.mouseSens
    ∧ (ctrl.update_camera sf cf cam).2.position
        = Vec3.add cam.position
            (Vec3.add
              (Vec3.smul (cam.forward sf cf)
                (ctrl.speed * (boolToRat ctrl.forwardPressed
                  - boolToRat ctrl.backwardPressed)))
              (Vec3.smul (Vec3.cross (cam.forward sf cf) ⟨0, -1, 0⟩)
                (ctrl.speed * (boolToRat ctrl.rightPressed
                  - boolToRat ctrl.leftPressed)))) := by
  refine ⟨rfl, rfl, rfl, rfl, rfl, rfl, rfl, rfl, rfl, rfl, ?_⟩
  apply Vec3.eq_of_components <;>
    cases hf : ctrl.forwardPressed <;> cases hb : ctrl.backwardPressed <;>
    cases hl : ctrl.leftPressed <;> cases hr : ctrl.rightPressed <;>
    simp [CameraController.update_camera, Camera.forward, Vec3.add, Vec3.sub,
      Vec3.smul, Vec3.cross, boolToRat, hf, hb, hl, hr] <;>
    ring

/-- C1: when the per-frame acquire reports the recoverable out-of-date error,
`draw_frame` sets the rebuild flag and returns early — no uniform update, no
record/submit, no present — and the frame is skipped, not fatal; an acquire
error other than out-of-date/suboptimal is fatal, while a successful acquire
(suboptimal included) with a successful present completes the frame. -/
theorem draw_frame_out_of_date_skips (rebuildNeeded suboptimal : Bool)
    (imageIndex : Nat) (present : PresentOutcome) :
    (draw_frame rebuildNeeded AcquireOutcome.outOfDate present).1 = true
    ∧ (draw_frame rebuildNeeded AcquireOutcome.outOfDate present).2.2
        = FrameResult.skipped
    ∧ (draw_frame rebuildNeeded AcquireOutcome.outOfDate present).2.1.filter
        (fun a => a == FrameAction.recordSubmitDraw || a == FrameAction.presentImage
          || a == FrameAction.updateUniformBuffer) = []
    ∧ (draw_frame rebuildNeeded AcquireOutcome.otherError present).2.2
        = FrameResult.fatal
    ∧ (draw_frame rebuildNeeded (AcquireOutcome.success suboptimal imageIndex)
        PresentOutcome.ok).2.2 = FrameResult.completed := by
  cases rebuildNeeded <;> cases suboptimal <;> cases present <;>
    exact ⟨rfl, rfl, rfl, rfl, rfl⟩

/-- Helper: enumerate-then-find equals the indexed reference recursion. -/
theorem enum_find?_map_eq_findIndexedAux {α : Type} (f : Nat → α → Bool)
    (l : List α) (i : Nat) :
    ((List.enumFrom i l).find? fun p => f p.1 p.2).map (fun p => p.1)
      = findIndexedAux f i l := by
  induction l generalizing i with
  | nil => rfl
  | cons a rest ih =>
    by_cases h : f i a
    · simp [List.enumFrom, List.find?, h, findIndexedAux]
    · simp [List.enumFrom, List.find?, h, findIndexedAux, ih]

/-- Helper: the reference recursion returns `none` exactly when no entry
qualifies at its shifted index. -/
theorem findIndexedAux_eq_none_iff {α : Type} (f : Nat → α → Bool)
    (l : List α) (i : Nat) :
    findIndexedAux f i l = none ↔
      ∀ k a, l.get? k = some a → f (i + k) a = false := by
  induction l generalizing i with
  | nil => simp [findIndexedAux]
  | cons b rest ih =>
    constructor
    · intro hnone k a hk
      unfold findIndexedAux at hnone
      by_cases h : f i b
      · rw [if_pos h] at hnone
        cases hnone
      · rw [if_neg h] at hnone
        simp only [Bool.not_eq_true] at h
        cases k with
        | zero =>
          simp only [List.get?] at hk
          cases hk
          simpa using h
        | succ k' =>
          have hres := (ih (i + 1)).mp hnone k' a (by simpa using hk)
          have heq : i + (k' + 1) = i + 1 + k' := by omega
          rw [heq]
          exact hres
    · intro hall
      unfold findIndexedAux
      by_cases h : f i b
      · exfalso
        have h0 := hall 0 b rfl
        rw [Nat.add_zero] at h0
        rw [h] at h0
        cases h0
      · rw [if_neg h]
        apply (ih (i + 1)).mpr
        intro k a hk
        have hres := hall (k + 1) a (by simpa using hk)
        have heq : i + 1 + k = i + (k + 1) := by omega
        rw [heq]
        exact hres

/-- Helper: the reference recursion returns the first qualifying index. -/
theorem findIndexedAux_eq_some_iff {α : Type} (f : Nat → α → Bool)
    (l : List α) (i j : Nat) :
    findIndexedAux f i l = some j ↔
      (i ≤ j ∧ (∃ a, l.get? (j - i) = some a ∧ f j a = true)
        ∧ ∀ k a, k < j - i → l.get? k = some a → f (i + k) a = false) := by
  induction l generalizing i with
  | nil => simp [findIndexedAux]
  | cons b rest ih =>
    constructor
    · intro hsome
      unfold findIndexedAux at hsome
      by_cases h : f i b
      · rw [if_pos h] at hsome
        cases hsome
        refine ⟨Nat.le_refl _, ⟨b, by simp, h⟩, ?_⟩
        intro k a hk hget
        exact absurd hk (by omega)
      · rw [if_neg h] at hsome
        simp only [Bool.not_eq_true] at h
        obtain ⟨hij, ⟨a, hget, hfa⟩, hmin⟩ := (ih (i + 1)).mp hsome
        refine ⟨by omega, ⟨a, ?_, hfa⟩, ?_⟩
        · have hji : j - i = (j - (i + 1)) + 1 := by omega
          rw [hji]
          simpa using hget
        · intro k a' hk hget'
          cases k with
          | zero =>
            simp only [List.get?] at hget'
            cases hget'
            simpa using h
          | succ k' =>
            have hlt : k' < j - (i + 1) := by omega
            have hres := hmin k' a' hlt (by simpa using hget')
            have heq : i + (k' + 1) = i + 1 + k' := by omega
            rw [heq]
            exact hres
    · rintro ⟨hij, ⟨a, hget, hfa⟩, hmin⟩
      unfold findIndexedAux
      by_cases hj : j = i
      · subst hj
        rw [Nat.sub_self] at hget
        simp only [List.get?] at hget
        cases hget
        rw [if_pos hfa]
      · have h0 : f i b = false := by
          have hres := hmin 0 b (by omega) rfl
          simpa using hres
        rw [if_neg (by simp [h0])]
        apply (ih (i + 1)).mpr
        refine ⟨by omega, ⟨a, ?_, hfa⟩, ?_⟩
        · have hji : j - i = (j - (i + 1)) + 1 := by omega
          rw [hji] at hget
          simpa using hget
        · intro k a' hk hget'
          have hk' : k + 1 < j - i := by omega
          have hres := hmin (k + 1) a' hk' (by simpa using hget')
          have heq : i + 1 + k = i + (k + 1) := by omega
          rw [heq]
          exact hres

/-- Helper: indexing into a `take` prefix. -/
theorem get?_take_eq_some_iff {α : Type} (l : List α) (c k : Nat) (a : α) :
    (l.take c).get? k = some a ↔ k < c ∧ l.get? k = some a := by
  induction l generalizing c k with
  | nil => simp
  | cons b rest ih =>
    cases c with
    | zero => simp
    | succ c' =>
      cases k with
      | zero => simp [List.take]
      | succ k' =>
        constructor
        · intro h
          have h' : (rest.take c').get? k' = some a := by
            simpa [List.take_succ_cons] using h
          obtain ⟨h1, h2⟩ := (ih c' k').mp h'
          refine ⟨by omega, by simpa using h2⟩
        · rintro ⟨h1, h2⟩
          have h2' : rest.get? k' = some a := by simpa using h2
          have hres := (ih c' k').mpr ⟨by omega, h2'⟩
          simpa [List.take_succ_cons] using hres

/-- C10: `find_memorytype_index` returns `none` exactly when no index `i`
below `memory_type_count` has bit `i` set in the requirements' type mask with
property flags containing all requested flags; otherwise it returns the
smallest such index (first match, no ranking).  The hypothesis mirrors the
Rust slice bound `memory_types[..memory_type_count]`, which Vulkan guarantees
(the table has 32 entries and the count is at most 32). -/
theorem find_memorytype_index_spec (req : MemoryRequirements)
    (prop : PhysicalDeviceMemoryProperties) (flags : Nat)
    (_hcount : prop.memoryTypeCount ≤ prop.memoryTypes.length) :
    (find_memorytype_index req prop flags = none ↔
      ∀ i mt, i < prop.memoryTypeCount → prop.memoryTypes.get? i = some mt →
        memoryTypeQualifies req flags i mt = false)
    ∧ (∀ j, find_memorytype_index req prop flags = some j ↔
        (j < prop.memoryTypeCount
          ∧ (∃ mt, prop.memoryTypes.get? j = some mt
              ∧ memoryTypeQualifies req flags j mt = true)
          ∧ ∀ i mt, i < j → prop.memoryTypes.get? i = some mt →
              memoryTypeQualifies req flags i mt = false)) := by
  have hfind : find_memorytype_index req prop flags
      = findIndexedAux (memoryTypeQualifies req flags) 0
          (prop.memoryTypes.take prop.memoryTypeCount) := by
    unfold find_memorytype_index
    rw [List.enum]
    exact enum_find?_map_eq_findIndexedAux (memoryTypeQualifies req flags) _ 0
  constructor
  · rw [hfind, findIndexedAux_eq_none_iff]
    constructor
    · intro h i mt hi hget
      have hres := h i mt ((get?_take_eq_some_iff _ _ _ _).mpr ⟨hi, hget⟩)
      simpa using hres
    · intro h k a hget
      obtain ⟨hk, hget'⟩ := (get?_take_eq_some_iff _ _ _ _).mp hget
      simpa using h k a hk hget'
  · intro j
    rw [hfind, findIndexedAux_eq_some_iff]
    constructor
    · rintro ⟨-, ⟨a, hget, hfa⟩, hmin⟩
      rw [Nat.sub_zero] at hget
      obtain ⟨hj, hget'⟩ := (get?_take_eq_some_iff _ _ _ _).mp hget
      refine ⟨hj, ⟨a, hget', hfa⟩, ?_⟩
      intro i mt hi hget2
      have hres := hmin i mt (by omega)
        ((get?_take_eq_some_iff _ _ _ _).mpr ⟨by omega, hget2⟩)
      simpa using hres
    · rintro ⟨hj, ⟨a, hget, hfa⟩, hmin⟩
      refine ⟨Nat.zero_le j, ⟨a, ?_, hfa⟩, ?_⟩
      · rw [Nat.sub_zero]
        exact (get?_take_eq_some_iff _ _ _ _).mpr ⟨hj, hget⟩
      · intro k a' hk hget'
        rw [Nat.sub_zero] at hk
        obtain ⟨hkc, hget2⟩ := (get?_take_eq_some_iff _ _ _ _).mp hget'
        simpa using hmin k a' hk hget2

/-- Witness for C10: in a two-entry table where only entry 1 qualifies (type
bit set and flags 5 ⊆ 7), the first match is index 1. -/
theorem find_memorytype_index_spec_witness :
    find_memorytype_index ⟨1024, 16, 2⟩ ⟨2, [⟨0, 0⟩, ⟨7, 0⟩]⟩ 5 = some 1 := by
  apply ((find_memorytype_index_spec ⟨1024, 16, 2⟩ ⟨2, [⟨0, 0⟩, ⟨7, 0⟩]⟩ 5
    (by decide)).2 1).mpr
  refine ⟨by decide, ⟨⟨7, 0⟩, rfl, by decide⟩, ?_⟩
  intro i mt hi hget
  have hi0 : i = 0 := by omega
  subst hi0
  simp only [List.get?] at hget
  cases hget
  decide

end AshRenderer
